import Mathlib

/-!
# Clipboard interception of the block editor: `CopyHandler`

A shallow embedding of
`packages/block-editor/src/components/copy-handler/index.js`:

* `useFlashBlock` (lines 15-36): the hook that highlights a block and resets the
  highlight with a one-shot timer, and whose cleanup clears the recorded timers;
* `CopyHandler.handler` (lines 62-135): the shared `onCopy` / `onCut` / `onPaste`
  handler.

JavaScript side effects are modelled by explicit state passing over a `World`
(the log of issued commands, the host's timer table and the hook's `timeouts`
ref).  A JavaScript exception keeps the side effects made before it, which is
what `EStateM` does: a run ends in `.ok a w` or in `.error e w`.
-/

namespace CopyHandler

/-! ## Data model -/

/-- A block's `clientId` (a uuid string in the editor). -/
abbrev ClientId := String

/-- A DOM node, by identity. -/
abbrev Node := Nat

/-- A JavaScript exception, by its message. -/
abbrev Exn := String

/-- A block of the store, as far as this component looks at it: the handler only
passes blocks on from `getBlocksByClientId` to `serialize` and from `pasteHandler`
to `replaceBlocks`. -/
structure Block where
  clientId : ClientId
  name : String
  content : String
  deriving DecidableEq, Repr

/-- What the handler reads of a registered block type: its `title` (line 93). -/
structure BlockType where
  title : String
  deriving DecidableEq, Repr

/-- The `event.type` of the three events the handler is attached to
(`onCopy`, `onCut`, `onPaste`, lines 140-142). -/
inductive EventType where
  | copy
  | cut
  | paste
  deriving DecidableEq, Repr

/-- The two strings `getPasteEventData( event )` returns (line 120). -/
structure PasteEventData where
  plainText : String
  html : String
  deriving DecidableEq, Repr

/-- The clipboard event: its `type`, its `target` and the readable side of its
`clipboardData`. -/
structure Event where
  type : EventType
  target : Node
  clipboardData : PasteEventData
  deriving DecidableEq, Repr

/-- The `mode` option of `pasteHandler`. -/
inductive PasteMode where
  | AUTO
  | INLINE
  | BLOCKS
  deriving DecidableEq, Repr

/-- The options object handed to `pasteHandler` (lines 121-126). -/
structure PasteArgs where
  HTML : String
  plainText : String
  mode : PasteMode
  canUserUseUnfilteredHTML : Bool
  deriving DecidableEq, Repr

/-- The `type` option of a notice. -/
inductive NoticeType where
  | default
  | snackbar
  deriving DecidableEq, Repr

/-- What the handler and the flash hook do to the outside, one constructor per
call: the event's `preventDefault` and `clipboardData.setData`, the store actions
`toggleBlockHighlight`, `createSuccessNotice`, `removeBlocks`, `replaceBlocks`,
and the calls to the two collaborators that may throw, `serialize` and
`pasteHandler`, logged at the moment they are called. -/
inductive Effect where
  | preventDefault
  | toggleBlockHighlight (clientId : ClientId) (isHighlighted : Bool)
  | createSuccessNotice (content : String) (type : NoticeType)
  | serialize (blocks : List Block)
  | setData (format : String) (data : String)
  | removeBlocks (clientIds : List ClientId)
  | pasteHandler (args : PasteArgs)
  | replaceBlocks (clientIds : List ClientId) (blocks : List Block)
      (indexToSelect : Int) (initialPosition : Int)
  deriving DecidableEq, Repr

/-- A pending host timer created by `setTimeout` in `flashBlock` (lines 21-23).
Its callback is always `() => toggleBlockHighlight( clientId, false )`, so the
timer stores the `clientId` the callback closes over. -/
structure Timer where
  handle : Nat
  clientId : ClientId
  due : Nat
  deriving DecidableEq, Repr

/-- The mutable world the component runs in. -/
structure World where
  /-- Every command issued so far, oldest first. -/
  log : List Effect
  /-- The host clock, in milliseconds. -/
  now : Nat
  /-- The handle the next `setTimeout` returns. -/
  nextHandle : Nat
  /-- The host's pending timers, in creation order. -/
  timers : List Timer
  /-- The array `timeouts.current` of `useFlashBlock` (line 17). -/
  timeouts : List Nat
  deriving DecidableEq, Repr

/-- What the handler reads from its surroundings when an event arrives: the
selectors of `core/block-editor` and `core/blocks`, the DOM predicates of
`@wordpress/dom`, the container's `contains`, and the collaborators `serialize`,
`pasteHandler` and `getPasteEventData`.  None of them is defined in this
component, so they are parameters.  `getBlockType( getBlockName( id ) )` is total
here: a selected block always has a registered type. -/
structure Env where
  getSelectedBlockClientIds : List ClientId
  hasMultiSelection : Bool
  documentHasTextSelection : Bool
  documentHasSelection : Bool
  getBlockName : ClientId → String
  getBlockType : String → BlockType
  getBlocksByClientId : List ClientId → List Block
  /-- The setting `__experimentalCanUserUseUnfilteredHTML` of `getSettings()`. -/
  canUserUseUnfilteredHTML : Bool
  /-- Encodes `containerRef.current.contains( node )`. -/
  contains : Node → Bool
  serialize : List Block → Except Exn String
  pasteHandler : PasteArgs → Except Exn (List Block)
  getPasteEventData : Event → PasteEventData

/-- Computations with side effects on the `World` that may throw. -/
abbrev JS := EStateM Exn World

/-- The world a run ends in, whether it returned or threw. -/
def finalWorld {α : Type} : EStateM.Result Exn World α → World
  | .ok _ w => w
  | .error _ w => w

/-- Whether a run returned normally. -/
def returned {α : Type} : EStateM.Result Exn World α → Bool
  | .ok _ _ => true
  | .error _ _ => false

/-- Issue one command: append it to the log. -/
def emit (e : Effect) : JS Unit :=
  fun w => .ok () { w with log := w.log ++ [e] }

/-- Call a collaborator that may throw: the call is logged, then its result is
returned or its exception propagates. -/
def call {α : Type} (e : Effect) (r : Except Exn α) : JS α :=
  fun w =>
    match r with
    | .ok a => .ok a { w with log := w.log ++ [e] }
    | .error x => .error x { w with log := w.log ++ [e] }

/-! ## `sprintf` and `__` of `@wordpress/i18n` -/

/-- An argument of `sprintf`. -/
inductive SprintfArg where
  | str (s : String)
  | num (n : Nat)
  deriving DecidableEq, Repr

/-- How `sprintf` prints an argument: a string as it is, a number in decimal. -/
def SprintfArg.render : SprintfArg → List Char
  | .str s => s.data
  | .num n => (toString n).data

/-- The placeholder substitution of `sprintf`, for the two placeholders this
component uses, `%s` and `%d`: each takes the next argument, and `%%` is a
percent sign.  The flag says that the previous character was a `%` not yet
consumed. -/
def sprintfChars : Bool → List Char → List SprintfArg → List Char
  | true, [], _ => ['%']
  | false, [], _ => []
  | true, c :: rest, args =>
    if c = 's' ∨ c = 'd' then
      match args with
      | a :: args' => a.render ++ sprintfChars false rest args'
      | [] => '%' :: c :: sprintfChars false rest []
    else if c = '%' then '%' :: sprintfChars false rest args
    else '%' :: c :: sprintfChars false rest args
  | false, c :: rest, args =>
    if c = '%' then sprintfChars true rest args
    else c :: sprintfChars false rest args

/-- Models `sprintf( format, ...args )`. -/
def sprintf (format : String) (args : List SprintfArg) : String :=
  String.mk (sprintfChars false format.data args)

/-- Models `__( text )` with no translation loaded: the text itself. -/
def translate (text : String) : String := text

/-! ## `useFlashBlock` (lines 15-36) -/

/-- Host `setTimeout( () => toggleBlockHighlight( clientId, false ), delay )`:
registers a timer due `delay` ms from now and returns its handle. -/
def setTimeout (clientId : ClientId) (delay : Nat) : JS Nat :=
  fun w => .ok w.nextHandle
    { w with
      nextHandle := w.nextHandle + 1
      timers := w.timers ++ [{ handle := w.nextHandle, clientId := clientId, due := w.now + delay }] }

/-- Host `clearTimeout( handle )`: the timer with that handle, if still pending,
is dropped and never fires. -/
def clearTimeout (handle : Nat) (w : World) : World :=
  { w with timers := w.timers.filter (fun t => t.handle != handle) }

/-- The callback `flashBlock` of `useFlashBlock` (lines 19-25). -/
def flashBlock (clientId : ClientId) : JS Unit := do
  emit (.toggleBlockHighlight clientId true)
  let timeout ← setTimeout clientId 1000
  modify fun w => { w with timeouts := w.timeouts ++ [timeout] }

/-- The cleanup of the hook's effect (lines 29-33), run when the component
unmounts: `timeouts.current.forEach( clearTimeout )`. -/
def teardown (w : World) : World :=
  w.timeouts.foldl (fun w timeout => clearTimeout timeout w) w

/-- The host lets `dt` ms pass: every pending timer that is due by then fires, in
creation order (all delays are equal, so that is the order of the deadlines), and
is gone afterwards.  Firing runs the callback `toggleBlockHighlight( id, false )`. -/
def advance (dt : Nat) (w : World) : World :=
  { w with
    now := w.now + dt
    log := w.log ++ (w.timers.filter (fun t => decide (t.due ≤ w.now + dt))).map
      (fun t => Effect.toggleBlockHighlight t.clientId false)
    timers := w.timers.filter (fun t => !decide (t.due ≤ w.now + dt)) }

/-- The world when the component mounts: `useRef( [] )`, nothing pending. -/
def mount (now nextHandle : Nat) : World :=
  { log := [], now := now, nextHandle := nextHandle, timers := [], timeouts := [] }

/-! ## `CopyHandler.handler` (lines 62-135) -/

/-- Lines 87-134 of `handler`: what it does once it has decided to take the
event over. -/
def intercept (env : Env) (event : Event) (selectedBlockClientIds : List ClientId) :
    JS Unit := do
  emit .preventDefault
  if event.type = .copy ∨ event.type = .cut then
    let mut notice := ""
    if h : selectedBlockClientIds.length = 1 then
      have : 0 < selectedBlockClientIds.length := by omega
      let clientId := selectedBlockClientIds[0]
      let title := (env.getBlockType (env.getBlockName clientId)).title
      flashBlock clientId
      notice := sprintf (translate "Copied block \"%s\" to clipboard.") [.str title]
    else
      notice := sprintf (translate "Copied %d blocks to clipboard.")
        [.num selectedBlockClientIds.length]
    emit (.createSuccessNotice notice .snackbar)
    let blocks := env.getBlocksByClientId selectedBlockClientIds
    let serialized ← call (.serialize blocks) (env.serialize blocks)
    emit (.setData "text/plain" serialized)
    emit (.setData "text/html" serialized)
  if event.type = .cut then
    emit (.removeBlocks selectedBlockClientIds)
  else if event.type = .paste then
    let data := env.getPasteEventData event
    let args : PasteArgs :=
      { HTML := data.html
        plainText := data.plainText
        mode := .BLOCKS
        canUserUseUnfilteredHTML := env.canUserUseUnfilteredHTML }
    let blocks ← call (.pasteHandler args) (env.pasteHandler args)
    emit (.replaceBlocks selectedBlockClientIds blocks ((blocks.length : Int) - 1) (-1))

/-- The handler of lines 62-135: the three guards of lines 65-86, then
`intercept`. -/
def handler (env : Env) (event : Event) : JS Unit := do
  let selectedBlockClientIds := env.getSelectedBlockClientIds
  if selectedBlockClientIds.length = 0 then
    return
  -- Always handle multiple selected blocks.
  if !env.hasMultiSelection then
    -- If copying, only consider actual text selection as selection.
    -- Otherwise, any focus on an input field is considered.
    let hasSelection :=
      if event.type = .copy ∨ event.type = .cut then env.documentHasTextSelection
      else env.documentHasSelection
    -- Let native copy behaviour take over in input fields.
    if hasSelection then
      return
  if !env.contains event.target then
    return
  intercept env event selectedBlockClientIds

/-! ## Observers used to state the properties -/

/-- The commands a run issued: what it appended to the log of the world it
started in. -/
def issued {α : Type} (m : JS α) (w : World) : List Effect :=
  (finalWorld (m w)).log.drop w.log.length

/-- The values written with `clipboardData.setData`, as (format, data) pairs. -/
def clipboardWrites (es : List Effect) : List (String × String) :=
  es.filterMap fun e =>
    match e with
    | .setData format data => some (format, data)
    | _ => none

/-- The notices created, as (content, type) pairs. -/
def notices (es : List Effect) : List (String × NoticeType) :=
  es.filterMap fun e =>
    match e with
    | .createSuccessNotice content type => some (content, type)
    | _ => none

/-- The highlight changes dispatched, as (clientId, isHighlighted) pairs. -/
def highlights (es : List Effect) : List (ClientId × Bool) :=
  es.filterMap fun e =>
    match e with
    | .toggleBlockHighlight clientId isHighlighted => some (clientId, isHighlighted)
    | _ => none

/-- The id lists of the `removeBlocks` commands. -/
def removals (es : List Effect) : List (List ClientId) :=
  es.filterMap fun e =>
    match e with
    | .removeBlocks clientIds => some clientIds
    | _ => none

/-- The predicate the handler consults for a single selected block, by event
kind: a selected text range on copy and cut, any text-field focus on paste. -/
def nativeSelection (env : Env) : EventType → Bool
  | .copy => env.documentHasTextSelection
  | .cut => env.documentHasTextSelection
  | .paste => env.documentHasSelection

/-- The three conditions under which the handler leaves the event to the host:
nothing selected; one block selected and a native selection; a target outside the
container. -/
def declines (env : Env) (event : Event) : Bool :=
  env.getSelectedBlockClientIds.isEmpty
    || (!env.hasMultiSelection && nativeSelection env event.type)
    || !env.contains event.target

/-- Modelled from the spec: the selectors `hasMultiSelection` and
`getSelectedBlockClientIds` live in the `core/block-editor` store, which is not
part of this component; the spec's data model says `hasMultiBlockSelection` is
"true iff more than one block is selected as a unit". -/
def selectionConsistent (env : Env) : Bool :=
  env.hasMultiSelection == decide (1 < env.getSelectedBlockClientIds.length)

/-- The options the handler passes to `pasteHandler` for an event. -/
def pasteArgs (env : Env) (event : Event) : PasteArgs :=
  { HTML := (env.getPasteEventData event).html
    plainText := (env.getPasteEventData event).plainText
    mode := .BLOCKS
    canUserUseUnfilteredHTML := env.canUserUseUnfilteredHTML }

/-- What can happen around the mounted hook before it is torn down: a call of
`flashBlock`, time passing (due timers fire), or a clipboard event reaching the
handler. -/
inductive HookAction where
  | flashBlock (clientId : ClientId)
  | advance (dt : Nat)
  | dispatch (env : Env) (event : Event)

/-- One action on the world. -/
def HookAction.apply (w : World) : HookAction → World
  | .flashBlock clientId => finalWorld (CopyHandler.flashBlock clientId w)
  | .advance dt => CopyHandler.advance dt w
  | .dispatch env event => finalWorld (handler env event w)

/-- A sequence of actions, in order. -/
def runActions (actions : List HookAction) (w : World) : World :=
  actions.foldl HookAction.apply w

/-- Time passing in several steps. -/
def advanceAll (steps : List Nat) (w : World) : World :=
  steps.foldl (fun w dt => advance dt w) w

/-! ## Example environments -/

/-- A paragraph block with its canonical markup as content. -/
def paragraph (clientId : ClientId) : Block :=
  { clientId := clientId
    name := "core/paragraph"
    content := "<!-- wp:paragraph --><p>" ++ clientId ++ "</p><!-- /wp:paragraph -->" }

/-- An editor in which the blocks `ids` are selected, all of them paragraphs, with
no native selection, a container holding the nodes below 100, a serializer that
concatenates the blocks' markup and a parser that returns two paragraphs. -/
def exampleEnv (ids : List ClientId) : Env :=
  { getSelectedBlockClientIds := ids
    hasMultiSelection := decide (1 < ids.length)
    documentHasTextSelection := false
    documentHasSelection := false
    getBlockName := fun _ => "core/paragraph"
    getBlockType := fun name =>
      { title := if name = "core/paragraph" then "Paragraph" else name }
    getBlocksByClientId := fun clientIds => clientIds.map paragraph
    canUserUseUnfilteredHTML := true
    contains := fun node => decide (node < 100)
    serialize := fun blocks => .ok (String.join (blocks.map fun b => b.content))
    pasteHandler := fun _ => .ok [paragraph "p", paragraph "q"]
    getPasteEventData := fun event => event.clipboardData }

/-- The same editor with a serializer that throws. -/
def failingEnv (ids : List ClientId) : Env :=
  { exampleEnv ids with serialize := fun _ => .error "serialize failed" }

/-- An event of the given kind from node 1, inside the container. -/
def insideEvent (type : EventType) : Event :=
  { type := type, target := 1, clipboardData := { plainText := "text", html := "<p>text</p>" } }

/-- An event of the given kind from node 100, outside the container. -/
def outsideEvent (type : EventType) : Event :=
  { type := type, target := 100, clipboardData := { plainText := "text", html := "<p>text</p>" } }

/-! ## Lemmas on the runs of the handler -/

/-- The single-block notice text, with the title substituted for `%s`. -/
theorem sprintf_block_title (title : String) :
    sprintf (translate "Copied block \"%s\" to clipboard.") [.str title]
      = "Copied block \"" ++ title ++ "\" to clipboard." := by
  apply String.ext
  simp [sprintf, translate, sprintfChars, SprintfArg.render]

/-- The multi-block notice text, with the count substituted for `%d`. -/
theorem sprintf_block_count (n : Nat) :
    sprintf (translate "Copied %d blocks to clipboard.") [.num n]
      = "Copied " ++ toString n ++ " blocks to clipboard." := by
  apply String.ext
  simp [sprintf, translate, sprintfChars, SprintfArg.render]

/-- The ternary of lines 73-76 is the predicate table `nativeSelection`. -/
theorem nativeSelection_eq (env : Env) (event : Event) :
    (if event.type = .copy ∨ event.type = .cut then env.documentHasTextSelection
      else env.documentHasSelection) = nativeSelection env event.type := by
  cases h : event.type <;> simp [nativeSelection]

/-- A handler that declines returns at one of the guards and leaves the world as it was. -/
theorem handler_of_declines (env : Env) (event : Event) (w : World)
    (h : declines env event = true) : handler env event w = .ok () w := by
  unfold handler
  rw [nativeSelection_eq]
  simp only [declines, Bool.or_eq_true, Bool.and_eq_true, Bool.not_eq_true', List.isEmpty_iff] at h
  rcases h with (h | ⟨h1, h2⟩) | h
  · simp [h, pure, EStateM.pure]
  · by_cases h0 : env.getSelectedBlockClientIds.length = 0
    · simp [h0, pure, EStateM.pure]
    · simp [h0, h1, h2, pure, EStateM.pure, bind, EStateM.bind]
  · by_cases h0 : env.getSelectedBlockClientIds.length = 0
    · simp [h0, pure, EStateM.pure]
    · simp [h0, h, pure, EStateM.pure, bind, EStateM.bind]
      split_ifs <;> rfl

/-- A handler that does not decline passes the three guards and runs `intercept`. -/
theorem handler_of_not_declines (env : Env) (event : Event) (w : World)
    (h : declines env event = false) :
    handler env event w = intercept env event env.getSelectedBlockClientIds w := by
  unfold handler
  rw [nativeSelection_eq]
  simp only [declines, Bool.or_eq_false_iff, Bool.and_eq_false_imp, Bool.not_eq_true',
    Bool.not_eq_false'] at h
  obtain ⟨⟨h0, h1⟩, h2⟩ := h
  have h0' : ¬ env.getSelectedBlockClientIds.length = 0 := by
    intro hl
    rw [List.length_eq_zero] at hl
    simp [hl] at h0
  cases hm : env.hasMultiSelection
  · simp [h0', hm, h1 hm, h2, pure, EStateM.pure, bind, EStateM.bind]
  · simp [h0', hm, h2, pure, EStateM.pure, bind, EStateM.bind]

/-- The world after one call of `flashBlock`. -/
theorem flashBlock_run (id : ClientId) (w : World) :
    flashBlock id w = .ok ()
      { w with
        log := w.log ++ [.toggleBlockHighlight id true]
        nextHandle := w.nextHandle + 1
        timers := w.timers ++ [{ handle := w.nextHandle, clientId := id, due := w.now + 1000 }]
        timeouts := w.timeouts ++ [w.nextHandle] } := by
  simp [flashBlock, setTimeout, emit, bind, EStateM.bind, modify, modifyGet,
    MonadStateOf.modifyGet, EStateM.modifyGet]

/-- An intercepted copy or cut of one block, when `serialize` returns. -/
theorem intercept_single_ok (env : Env) (event : Event) (id : ClientId) (w : World)
    (s : String) (ht : event.type ≠ .paste)
    (hs : env.serialize (env.getBlocksByClientId [id]) = .ok s) :
    intercept env event [id] w = .ok ()
      { w with
        log := w.log ++
          ([.preventDefault, .toggleBlockHighlight id true,
            .createSuccessNotice
              ("Copied block \"" ++ (env.getBlockType (env.getBlockName id)).title
                ++ "\" to clipboard.") .snackbar,
            .serialize (env.getBlocksByClientId [id]),
            .setData "text/plain" s, .setData "text/html" s]
          ++ (if event.type = .cut then [.removeBlocks [id]] else []))
        nextHandle := w.nextHandle + 1
        timers := w.timers ++ [{ handle := w.nextHandle, clientId := id, due := w.now + 1000 }]
        timeouts := w.timeouts ++ [w.nextHandle] } := by
  unfold intercept
  cases h : event.type <;>
    simp_all [pure, EStateM.pure, bind, EStateM.bind, emit, call, flashBlock, setTimeout,
      modify, modifyGet, MonadStateOf.modifyGet, EStateM.modifyGet, sprintf_block_title]

/-- An intercepted copy or cut of one block, when `serialize` throws. -/
theorem intercept_single_error (env : Env) (event : Event) (id : ClientId) (w : World)
    (x : Exn) (ht : event.type ≠ .paste)
    (hs : env.serialize (env.getBlocksByClientId [id]) = .error x) :
    intercept env event [id] w = .error x
      { w with
        log := w.log ++
          [.preventDefault, .toggleBlockHighlight id true,
            .createSuccessNotice
              ("Copied block \"" ++ (env.getBlockType (env.getBlockName id)).title
                ++ "\" to clipboard.") .snackbar,
            .serialize (env.getBlocksByClientId [id])]
        nextHandle := w.nextHandle + 1
        timers := w.timers ++ [{ handle := w.nextHandle, clientId := id, due := w.now + 1000 }]
        timeouts := w.timeouts ++ [w.nextHandle] } := by
  unfold intercept
  cases h : event.type <;>
    simp_all [pure, EStateM.pure, bind, EStateM.bind, emit, call, flashBlock, setTimeout,
      modify, modifyGet, MonadStateOf.modifyGet, EStateM.modifyGet, sprintf_block_title]

/-- An intercepted copy or cut of several blocks, when `serialize` returns. -/
theorem intercept_multi_ok (env : Env) (event : Event) (ids : List ClientId) (w : World)
    (s : String) (ht : event.type ≠ .paste) (hn : ids.length ≠ 1)
    (hs : env.serialize (env.getBlocksByClientId ids) = .ok s) :
    intercept env event ids w = .ok ()
      { w with
        log := w.log ++
          ([.preventDefault,
            .createSuccessNotice
              ("Copied " ++ toString ids.length ++ " blocks to clipboard.") .snackbar,
            .serialize (env.getBlocksByClientId ids),
            .setData "text/plain" s, .setData "text/html" s]
          ++ (if event.type = .cut then [.removeBlocks ids] else [])) } := by
  unfold intercept
  cases h : event.type <;>
    simp_all [pure, EStateM.pure, bind, EStateM.bind, emit, call,
      sprintf_block_count]

/-- An intercepted copy or cut of several blocks, when `serialize` throws. -/
theorem intercept_multi_error (env : Env) (event : Event) (ids : List ClientId) (w : World)
    (x : Exn) (ht : event.type ≠ .paste) (hn : ids.length ≠ 1)
    (hs : env.serialize (env.getBlocksByClientId ids) = .error x) :
    intercept env event ids w = .error x
      { w with
        log := w.log ++
          [.preventDefault,
            .createSuccessNotice
              ("Copied " ++ toString ids.length ++ " blocks to clipboard.") .snackbar,
            .serialize (env.getBlocksByClientId ids)] } := by
  unfold intercept
  cases h : event.type <;>
    simp_all [pure, EStateM.pure, bind, EStateM.bind, emit, call,
      sprintf_block_count]

/-- An intercepted paste, when `pasteHandler` returns. -/
theorem intercept_paste_ok (env : Env) (event : Event) (ids : List ClientId) (w : World)
    (blocks : List Block) (ht : event.type = .paste)
    (hp : env.pasteHandler (pasteArgs env event) = .ok blocks) :
    intercept env event ids w = .ok ()
      { w with
        log := w.log ++
          [.preventDefault, .pasteHandler (pasteArgs env event),
            .replaceBlocks ids blocks ((blocks.length : Int) - 1) (-1)] } := by
  unfold intercept
  simp only [pasteArgs] at hp ⊢
  simp [ht, hp, pure, EStateM.pure, bind, EStateM.bind, emit, call]

/-- An intercepted paste, when `pasteHandler` throws. -/
theorem intercept_paste_error (env : Env) (event : Event) (ids : List ClientId) (w : World)
    (x : Exn) (ht : event.type = .paste)
    (hp : env.pasteHandler (pasteArgs env event) = .error x) :
    intercept env event ids w = .error x
      { w with
        log := w.log ++ [.preventDefault, .pasteHandler (pasteArgs env event)] } := by
  unfold intercept
  simp only [pasteArgs] at hp ⊢
  simp [ht, hp, pure, EStateM.pure, bind, EStateM.bind, emit, call]

/-- A run whose final log is the initial log followed by `es` issued `es`. -/
theorem issued_of_log {α : Type} (m : JS α) (w : World) (es : List Effect)
    (h : (finalWorld (m w)).log = w.log ++ es) : issued m w = es := by
  simp [issued, h]

/-- Whatever happens afterwards, `intercept` first calls `preventDefault`. -/
theorem intercept_log (env : Env) (event : Event) (ids : List ClientId) (w : World) :
    ∃ rest, (finalWorld (intercept env event ids w)).log
      = w.log ++ Effect.preventDefault :: rest := by
  by_cases ht : event.type = .paste
  · cases hp : env.pasteHandler (pasteArgs env event) with
    | ok blocks => exact ⟨_, by rw [intercept_paste_ok env event ids w blocks ht hp]; rfl⟩
    | error x => exact ⟨_, by rw [intercept_paste_error env event ids w x ht hp]; rfl⟩
  · by_cases hn : ids.length = 1
    · obtain ⟨id, rfl⟩ := List.length_eq_one.mp hn
      cases hs : env.serialize (env.getBlocksByClientId [id]) with
      | ok s => exact ⟨_, by rw [intercept_single_ok env event id w s ht hs]; rfl⟩
      | error x => exact ⟨_, by rw [intercept_single_error env event id w x ht hs]; rfl⟩
    · cases hs : env.serialize (env.getBlocksByClientId ids) with
      | ok s => exact ⟨_, by rw [intercept_multi_ok env event ids w s ht hn hs]; rfl⟩
      | error x => exact ⟨_, by rw [intercept_multi_error env event ids w x ht hn hs]; rfl⟩

/-- At mount no timer is pending. -/
theorem recorded_mount (now nextHandle : Nat) :
    ∀ t ∈ (mount now nextHandle).timers, t.handle ∈ (mount now nextHandle).timeouts := by
  intro t ht
  simp [mount] at ht

/-- The handler touches the timers only through `flashBlock`: it leaves them and
`timeouts.current` alone, or adds one timer and records its handle. -/
theorem handler_flash_state (env : Env) (event : Event) (w : World) :
    ((finalWorld (handler env event w)).timers = w.timers
        ∧ (finalWorld (handler env event w)).timeouts = w.timeouts)
      ∨ ∃ id, (finalWorld (handler env event w)).timers
            = w.timers ++ [{ handle := w.nextHandle, clientId := id, due := w.now + 1000 }]
          ∧ (finalWorld (handler env event w)).timeouts = w.timeouts ++ [w.nextHandle] := by
  cases hd : declines env event with
  | true => rw [handler_of_declines env event w hd]; exact Or.inl ⟨rfl, rfl⟩
  | false =>
    rw [handler_of_not_declines env event w hd]
    by_cases ht : event.type = .paste
    · cases hp : env.pasteHandler (pasteArgs env event) with
      | ok blocks => rw [intercept_paste_ok env event _ w blocks ht hp]; exact Or.inl ⟨rfl, rfl⟩
      | error x => rw [intercept_paste_error env event _ w x ht hp]; exact Or.inl ⟨rfl, rfl⟩
    · by_cases hn : env.getSelectedBlockClientIds.length = 1
      · obtain ⟨id, hid⟩ := List.length_eq_one.mp hn
        rw [hid]
        cases hs : env.serialize (env.getBlocksByClientId [id]) with
        | ok s => rw [intercept_single_ok env event id w s ht hs]; exact Or.inr ⟨id, rfl, rfl⟩
        | error x =>
          rw [intercept_single_error env event id w x ht hs]; exact Or.inr ⟨id, rfl, rfl⟩
      · cases hs : env.serialize (env.getBlocksByClientId env.getSelectedBlockClientIds) with
        | ok s => rw [intercept_multi_ok env event _ w s ht hn hs]; exact Or.inl ⟨rfl, rfl⟩
        | error x => rw [intercept_multi_error env event _ w x ht hn hs]; exact Or.inl ⟨rfl, rfl⟩

/-- Each action keeps every pending timer's handle in `timeouts.current`. -/
theorem recorded_apply (w : World) (a : HookAction)
    (h : ∀ t ∈ w.timers, t.handle ∈ w.timeouts) :
    ∀ t ∈ (a.apply w).timers, t.handle ∈ (a.apply w).timeouts := by
  cases a with
  | flashBlock id =>
    intro t ht
    simp only [HookAction.apply, flashBlock_run, finalWorld, List.mem_append,
      List.mem_singleton] at ht ⊢
    rcases ht with ht | rfl
    · exact Or.inl (h t ht)
    · exact Or.inr rfl
  | advance dt =>
    intro t ht
    simp only [HookAction.apply, advance, List.mem_filter] at ht ⊢
    exact h t ht.1
  | dispatch env event =>
    intro t ht
    simp only [HookAction.apply] at ht ⊢
    rcases handler_flash_state env event w with ⟨h1, h2⟩ | ⟨id, h1, h2⟩
    · rw [h1] at ht; rw [h2]; exact h t ht
    · rw [h1] at ht; rw [h2]
      simp only [List.mem_append, List.mem_singleton] at ht ⊢
      rcases ht with ht | rfl
      · exact Or.inl (h t ht)
      · exact Or.inr rfl

/-- So does every sequence of actions. -/
theorem recorded_runActions (actions : List HookAction) (w : World)
    (h : ∀ t ∈ w.timers, t.handle ∈ w.timeouts) :
    ∀ t ∈ (runActions actions w).timers, t.handle ∈ (runActions actions w).timeouts := by
  induction actions generalizing w with
  | nil => exact h
  | cons a rest ih => exact ih (a.apply w) (recorded_apply w a h)

/-- Clearing a list of handles drops exactly the timers with those handles and
issues no command. -/
theorem clearAll_spec (handles : List Nat) (w : World) :
    (handles.foldl (fun w timeout => clearTimeout timeout w) w).timers
        = w.timers.filter (fun t => decide (t.handle ∉ handles))
      ∧ (handles.foldl (fun w timeout => clearTimeout timeout w) w).log = w.log := by
  induction handles generalizing w with
  | nil => simp
  | cons a rest ih =>
    simp only [List.foldl_cons]
    obtain ⟨h1, h2⟩ := ih (clearTimeout a w)
    rw [h1, h2]
    refine ⟨?_, rfl⟩
    simp only [clearTimeout, List.filter_filter]
    congr 1
    funext t
    by_cases hta : t.handle = a <;> simp [hta]

/-- When every pending timer is recorded, the cleanup leaves none pending. -/
theorem teardown_timers (w : World) (h : ∀ t ∈ w.timers, t.handle ∈ w.timeouts) :
    (teardown w).timers = [] := by
  rw [teardown, (clearAll_spec w.timeouts w).1, List.filter_eq_nil_iff]
  intro t ht
  simp [h t ht]

/-- With no timer pending, time passing changes nothing but the clock. -/
theorem advanceAll_idle (steps : List Nat) (w : World) (h : w.timers = []) :
    (advanceAll steps w).log = w.log ∧ (advanceAll steps w).timers = [] := by
  induction steps generalizing w with
  | nil => exact ⟨rfl, h⟩
  | cons dt rest ih =>
    have h1 : (advance dt w).timers = [] := by simp [advance, h]
    have h2 : (advance dt w).log = w.log := by simp [advance, h]
    obtain ⟨h3, h4⟩ := ih (advance dt w) h1
    exact ⟨by rw [← h2, ← h3]; rfl, h4⟩

/-- For contrast: without the cleanup the timer of a flash fires after 1000 ms and
resets the highlight, and not before. -/
theorem pending_timer_fires_without_teardown :
    (advance 1000 (runActions [.flashBlock "k"] (mount 0 0))).log
        = [Effect.toggleBlockHighlight "k" true, Effect.toggleBlockHighlight "k" false]
      ∧ (advance 999 (runActions [.flashBlock "k"] (mount 0 0))).log
        = [Effect.toggleBlockHighlight "k" true] := by
  decide

/-! ## The claims -/

/-- Claim C1: when the handler declines to intercept (nothing is selected; or
`hasMultiSelection` is false and the predicate for the event kind is true; or the
target is outside the container), it returns with the world exactly as it found
it: no `preventDefault`, no clipboard write, no notice, no flash, no timer, no
`removeBlocks` and no `replaceBlocks`. -/
theorem declined_event_has_no_side_effects (env : Env) (event : Event) (w : World)
    (h : env.getSelectedBlockClientIds = []
      ∨ (env.hasMultiSelection = false ∧ nativeSelection env event.type = true)
      ∨ env.contains event.target = false) :
    handler env event w = .ok () w ∧ issued (handler env event) w = [] := by
  have hd : declines env event = true := by
    rcases h with h | ⟨h1, h2⟩ | h <;> simp [declines, *]
  have hr := handler_of_declines env event w hd
  exact ⟨hr, by simp [issued, hr, finalWorld]⟩

/-- Claim C1 at an editor with nothing selected. -/
theorem declined_event_has_no_side_effects_witness :
    (exampleEnv []).getSelectedBlockClientIds = []
      ∧ handler (exampleEnv []) (insideEvent .copy) (mount 0 0) = .ok () (mount 0 0)
      ∧ issued (handler (exampleEnv []) (insideEvent .copy)) (mount 0 0) = [] :=
  ⟨rfl, declined_event_has_no_side_effects (exampleEnv []) (insideEvent .copy) (mount 0 0)
    (Or.inl rfl)⟩

/-- Claim C2 fails as stated: with two blocks selected (and `hasMultiSelection`
true), a copy whose target is outside the container is not intercepted; the
guard of line 84 returns before `preventDefault`. -/
theorem multi_selection_outside_container_not_intercepted :
    2 ≤ (exampleEnv ["a", "b"]).getSelectedBlockClientIds.length
      ∧ (exampleEnv ["a", "b"]).hasMultiSelection = true
      ∧ Effect.preventDefault
          ∉ issued (handler (exampleEnv ["a", "b"]) (outsideEvent .copy)) (mount 0 0)
      ∧ issued (handler (exampleEnv ["a", "b"]) (outsideEvent .copy)) (mount 0 0) = [] := by
  decide

/-- Claim C2, amended: with at least two block ids selected (so that
`hasMultiSelection` is true) and the event target inside the container, the
handler intercepts every kind of event, whatever the values of
`documentHasTextSelection` and `documentHasSelection`: the run is that of
`intercept`, which does not read them, and it starts with `preventDefault`. -/
theorem multi_selection_intercepted_inside_container (env : Env) (event : Event) (w : World)
    (hn : 2 ≤ env.getSelectedBlockClientIds.length)
    (hc : selectionConsistent env = true)
    (ht : env.contains event.target = true) :
    ∀ text focus : Bool,
      handler { env with documentHasTextSelection := text, documentHasSelection := focus }
          event w = intercept env event env.getSelectedBlockClientIds w
        ∧ ∃ rest,
          issued
            (handler { env with documentHasTextSelection := text, documentHasSelection := focus }
              event) w = Effect.preventDefault :: rest := by
  have hm : env.hasMultiSelection = true := by
    simp only [selectionConsistent, beq_iff_eq] at hc
    rw [hc]; simp; omega
  have hne : env.getSelectedBlockClientIds.isEmpty = false := by
    cases h : env.getSelectedBlockClientIds with
    | nil => simp [h] at hn
    | cons a l => rfl
  intro text focus
  have hr : handler { env with documentHasTextSelection := text, documentHasSelection := focus }
      event w = intercept env event env.getSelectedBlockClientIds w := by
    rw [handler_of_not_declines]
    · rfl
    · simp [declines, hm, ht, hne]
  refine ⟨hr, ?_⟩
  obtain ⟨rest, hrest⟩ := intercept_log env event env.getSelectedBlockClientIds w
  exact ⟨rest, issued_of_log _ _ _ (by rw [hr]; exact hrest)⟩

/-- Claim C2, amended, at a cut of two blocks with both predicates true. -/
theorem multi_selection_intercepted_inside_container_witness :
    handler
        { exampleEnv ["a", "b"] with documentHasTextSelection := true, documentHasSelection := true }
        (insideEvent .cut) (mount 0 0)
        = intercept (exampleEnv ["a", "b"]) (insideEvent .cut) ["a", "b"] (mount 0 0)
      ∧ ∃ rest,
        issued
          (handler
            { exampleEnv ["a", "b"] with
              documentHasTextSelection := true, documentHasSelection := true }
            (insideEvent .cut)) (mount 0 0) = Effect.preventDefault :: rest :=
  multi_selection_intercepted_inside_container (exampleEnv ["a", "b"]) (insideEvent .cut)
    (mount 0 0) (by decide) (by decide) (by decide) true true

/-- Claim C3 fails as stated: with exactly one block selected and the consulted
predicate false, a copy whose target is outside the container is not
intercepted. -/
theorem single_selection_outside_container_not_intercepted :
    (exampleEnv ["id7"]).getSelectedBlockClientIds = ["id7"]
      ∧ (exampleEnv ["id7"]).hasMultiSelection = false
      ∧ (exampleEnv ["id7"]).documentHasTextSelection = false
      ∧ Effect.preventDefault
          ∉ issued (handler (exampleEnv ["id7"]) (outsideEvent .copy)) (mount 0 0)
      ∧ issued (handler (exampleEnv ["id7"]) (outsideEvent .copy)) (mount 0 0) = [] := by
  decide

/-- Claim C3, amended: with exactly one block id selected and `hasMultiSelection`
false, the predicate consulted is `documentHasTextSelection` on copy and cut and
`documentHasSelection` on paste; if it is true the handler does nothing at all;
if it is false and the event target is inside the container, the handler
intercepts: its run is that of `intercept` and starts with `preventDefault`. -/
theorem single_selection_defers_to_native_selection (env : Env) (event : Event) (w : World)
    (id : ClientId) (hs : env.getSelectedBlockClientIds = [id])
    (hm : env.hasMultiSelection = false) :
    let consulted :=
      match event.type with
      | .copy => env.documentHasTextSelection
      | .cut => env.documentHasTextSelection
      | .paste => env.documentHasSelection
    (consulted = true →
      handler env event w = .ok () w ∧ issued (handler env event) w = [])
    ∧ (consulted = false → env.contains event.target = true →
      handler env event w = intercept env event [id] w
        ∧ ∃ rest, issued (handler env event) w = Effect.preventDefault :: rest) := by
  intro consulted
  have hcons : consulted = nativeSelection env event.type := by
    simp only [consulted, nativeSelection]
  refine ⟨fun hp => ?_, fun hp ht => ?_⟩
  · have hr := handler_of_declines env event w (by simp [declines, hm, ← hcons, hp])
    exact ⟨hr, by simp [issued, hr, finalWorld]⟩
  · have hr := handler_of_not_declines env event w (by simp [declines, hs, ← hcons, hp, ht])
    rw [hs] at hr
    refine ⟨hr, ?_⟩
    obtain ⟨rest, hrest⟩ := intercept_log env event [id] w
    exact ⟨rest, issued_of_log _ _ _ (by rw [hr]; exact hrest)⟩

/-- Claim C3, amended, at a paste into an editor with one block selected and no
text field focused. -/
theorem single_selection_defers_to_native_selection_witness :
    (exampleEnv ["id7"]).getSelectedBlockClientIds = ["id7"]
      ∧ (exampleEnv ["id7"]).hasMultiSelection = false
      ∧ handler (exampleEnv ["id7"]) (insideEvent .paste) (mount 0 0)
          = intercept (exampleEnv ["id7"]) (insideEvent .paste) ["id7"] (mount 0 0)
      ∧ ∃ rest, issued (handler (exampleEnv ["id7"]) (insideEvent .paste)) (mount 0 0)
          = Effect.preventDefault :: rest :=
  ⟨rfl, rfl,
    (single_selection_defers_to_native_selection (exampleEnv ["id7"]) (insideEvent .paste)
      (mount 0 0) "id7" rfl rfl).2 rfl rfl⟩

/-- Claim C4: an intercepted copy with selected ids S, when `serialize` returns
the string s for `getBlocksByClientId( S )`, writes exactly two values to the
clipboard, s under `text/plain` and then s under `text/html`; `serialize` was
called on the blocks of the whole selection, in selection order. -/
theorem copy_writes_serialized_blocks_to_both_channels (env : Env) (event : Event) (w : World)
    (s : String) (ht : event.type = .copy) (hi : declines env event = false)
    (hs : env.serialize (env.getBlocksByClientId env.getSelectedBlockClientIds) = .ok s) :
    clipboardWrites (issued (handler env event) w) = [("text/plain", s), ("text/html", s)]
      ∧ Effect.serialize (env.getBlocksByClientId env.getSelectedBlockClientIds)
          ∈ issued (handler env event) w := by
  have htp : event.type ≠ .paste := by simp [ht]
  by_cases hn : env.getSelectedBlockClientIds.length = 1
  · obtain ⟨id, hid⟩ := List.length_eq_one.mp hn
    rw [hid] at hs
    have hr := handler_of_not_declines env event w hi
    rw [hid, intercept_single_ok env event id w s htp hs] at hr
    rw [issued_of_log (handler env event) w _ (by rw [hr]; rfl)]
    simp [clipboardWrites, ht, hid]
  · have hr := handler_of_not_declines env event w hi
    rw [intercept_multi_ok env event _ w s htp hn hs] at hr
    rw [issued_of_log (handler env event) w _ (by rw [hr]; rfl)]
    simp [clipboardWrites, ht]

/-- Claim C4 at a copy of the paragraph `id7`: both channels hold its markup. -/
theorem copy_writes_serialized_blocks_to_both_channels_witness :
    clipboardWrites (issued (handler (exampleEnv ["id7"]) (insideEvent .copy)) (mount 0 0))
        = [("text/plain", "<!-- wp:paragraph --><p>id7</p><!-- /wp:paragraph -->"),
           ("text/html", "<!-- wp:paragraph --><p>id7</p><!-- /wp:paragraph -->")]
      ∧ Effect.serialize [paragraph "id7"]
          ∈ issued (handler (exampleEnv ["id7"]) (insideEvent .copy)) (mount 0 0) :=
  copy_writes_serialized_blocks_to_both_channels (exampleEnv ["id7"]) (insideEvent .copy)
    (mount 0 0) _ rfl rfl rfl

/-- Claim C5 fails as stated: a cut of the blocks `a`, `b` whose serialization
throws is intercepted, yet it issues exactly the commands of the copy and no
`removeBlocks`: the exception of line 111 leaves the handler before line 118. -/
theorem cut_with_failing_serialize_removes_nothing :
    declines (failingEnv ["a", "b"]) (insideEvent .cut) = false
      ∧ Effect.preventDefault
          ∈ issued (handler (failingEnv ["a", "b"]) (insideEvent .cut)) (mount 0 0)
      ∧ returned (handler (failingEnv ["a", "b"]) (insideEvent .cut) (mount 0 0)) = false
      ∧ issued (handler (failingEnv ["a", "b"]) (insideEvent .cut)) (mount 0 0)
        = issued (handler (failingEnv ["a", "b"]) (insideEvent .copy)) (mount 0 0)
      ∧ removals (issued (handler (failingEnv ["a", "b"]) (insideEvent .cut)) (mount 0 0))
        = [] := by
  decide

/-- Claim C5, amended: in every environment where the event is intercepted, a copy
issues no `removeBlocks`; when `serialize` returns, a cut of the selection S
issues exactly the commands of a copy of S followed by one `removeBlocks( S )`,
and ends in the world of the copy with that one command appended (same clipboard
writes, notice, highlight and timer); when `serialize` throws, a cut does exactly
what the copy does and ends in the same exception. -/
theorem cut_is_copy_followed_by_remove (env : Env) (target : Node) (data : PasteEventData)
    (w : World)
    (hi : declines env { type := .cut, target := target, clipboardData := data } = false) :
    let cut : Event := { type := .cut, target := target, clipboardData := data }
    let copy : Event := { type := .copy, target := target, clipboardData := data }
    removals (issued (handler env copy) w) = []
      ∧ (∀ s, env.serialize (env.getBlocksByClientId env.getSelectedBlockClientIds) = .ok s →
        issued (handler env cut) w
            = issued (handler env copy) w ++ [Effect.removeBlocks env.getSelectedBlockClientIds]
          ∧ finalWorld (handler env cut w)
            = { finalWorld (handler env copy w) with
                log := (finalWorld (handler env copy w)).log
                  ++ [Effect.removeBlocks env.getSelectedBlockClientIds] }
          ∧ returned (handler env cut w) = true
          ∧ clipboardWrites (issued (handler env cut) w)
            = clipboardWrites (issued (handler env copy) w)
          ∧ notices (issued (handler env cut) w) = notices (issued (handler env copy) w)
          ∧ highlights (issued (handler env cut) w)
            = highlights (issued (handler env copy) w))
      ∧ (∀ x, env.serialize (env.getBlocksByClientId env.getSelectedBlockClientIds) = .error x →
        handler env cut w = handler env copy w
          ∧ returned (handler env cut w) = false
          ∧ removals (issued (handler env cut) w) = []) := by
  intro cut copy
  have hi' : declines env copy = false := by
    simpa [declines, nativeSelection, cut, copy] using hi
  have hcut := handler_of_not_declines env cut w hi
  have hcopy := handler_of_not_declines env copy w hi'
  by_cases hn : env.getSelectedBlockClientIds.length = 1
  · obtain ⟨id, hid⟩ := List.length_eq_one.mp hn
    rw [hid] at hcut hcopy
    simp only [hid]
    cases hs : env.serialize (env.getBlocksByClientId [id]) with
    | ok s =>
      rw [intercept_single_ok env cut id w s (by simp [cut]) hs] at hcut
      rw [intercept_single_ok env copy id w s (by simp [copy]) hs] at hcopy
      rw [issued_of_log (handler env cut) w _ (by rw [hcut]; rfl),
        issued_of_log (handler env copy) w _ (by rw [hcopy]; rfl), hcut, hcopy]
      simp [finalWorld, returned, cut, copy, removals, clipboardWrites, notices, highlights]
    | error x =>
      rw [intercept_single_error env cut id w x (by simp [cut]) hs] at hcut
      rw [intercept_single_error env copy id w x (by simp [copy]) hs] at hcopy
      rw [issued_of_log (handler env cut) w _ (by rw [hcut]; rfl),
        issued_of_log (handler env copy) w _ (by rw [hcopy]; rfl), hcut, hcopy]
      simp [returned, removals]
  · cases hs : env.serialize (env.getBlocksByClientId env.getSelectedBlockClientIds) with
    | ok s =>
      rw [intercept_multi_ok env cut _ w s (by simp [cut]) hn hs] at hcut
      rw [intercept_multi_ok env copy _ w s (by simp [copy]) hn hs] at hcopy
      rw [issued_of_log (handler env cut) w _ (by rw [hcut]; rfl),
        issued_of_log (handler env copy) w _ (by rw [hcopy]; rfl), hcut, hcopy]
      simp [finalWorld, returned, cut, copy, removals, clipboardWrites, notices, highlights]
    | error x =>
      rw [intercept_multi_error env cut _ w x (by simp [cut]) hn hs] at hcut
      rw [intercept_multi_error env copy _ w x (by simp [copy]) hn hs] at hcopy
      rw [issued_of_log (handler env cut) w _ (by rw [hcut]; rfl),
        issued_of_log (handler env copy) w _ (by rw [hcopy]; rfl), hcut, hcopy]
      simp [returned, removals]

/-- Claim C5, amended, at a cut of the blocks `a`, `b` whose serialization
returns. -/
theorem cut_is_copy_followed_by_remove_witness :
    declines (exampleEnv ["a", "b"]) (insideEvent .cut) = false
      ∧ issued (handler (exampleEnv ["a", "b"]) (insideEvent .cut)) (mount 0 0)
        = issued (handler (exampleEnv ["a", "b"]) (insideEvent .copy)) (mount 0 0)
          ++ [Effect.removeBlocks ["a", "b"]]
      ∧ removals (issued (handler (exampleEnv ["a", "b"]) (insideEvent .copy)) (mount 0 0))
        = [] :=
  ⟨rfl,
    ((cut_is_copy_followed_by_remove (exampleEnv ["a", "b"]) 1
      { plainText := "text", html := "<p>text</p>" } (mount 0 0) rfl).2.1 _ rfl).1,
    (cut_is_copy_followed_by_remove (exampleEnv ["a", "b"]) 1
      { plainText := "text", html := "<p>text</p>" } (mount 0 0) rfl).1⟩

/-- Claim C6: an intercepted copy or cut creates exactly one notice, of type
`snackbar`; with exactly one id selected its text is
`Copied block "T" to clipboard.`, T the title of
`getBlockType( getBlockName( id ) )`; with N > 1 ids selected its text is
`Copied N blocks to clipboard.`, N the length of the selected id list. -/
theorem copy_creates_one_snackbar_notice (env : Env) (event : Event) (w : World)
    (ht : event.type = .copy ∨ event.type = .cut) (hi : declines env event = false) :
    (∀ id, env.getSelectedBlockClientIds = [id] →
      notices (issued (handler env event) w)
        = [("Copied block \"" ++ (env.getBlockType (env.getBlockName id)).title
              ++ "\" to clipboard.", NoticeType.snackbar)])
    ∧ (1 < env.getSelectedBlockClientIds.length →
      notices (issued (handler env event) w)
        = [("Copied " ++ toString env.getSelectedBlockClientIds.length
              ++ " blocks to clipboard.", NoticeType.snackbar)]) := by
  have htp : event.type ≠ .paste := by rcases ht with h | h <;> simp [h]
  have hr := handler_of_not_declines env event w hi
  refine ⟨fun id hid => ?_, fun hn => ?_⟩
  · rw [hid] at hr
    cases hs : env.serialize (env.getBlocksByClientId [id]) with
    | ok s =>
      rw [intercept_single_ok env event id w s htp hs] at hr
      rw [issued_of_log (handler env event) w _ (by rw [hr]; rfl)]
      by_cases hc : event.type = .cut <;> simp [notices, hc]
    | error x =>
      rw [intercept_single_error env event id w x htp hs] at hr
      rw [issued_of_log (handler env event) w _ (by rw [hr]; rfl)]
      simp [notices]
  · have hne : env.getSelectedBlockClientIds.length ≠ 1 := by omega
    cases hs : env.serialize (env.getBlocksByClientId env.getSelectedBlockClientIds) with
    | ok s =>
      rw [intercept_multi_ok env event _ w s htp hne hs] at hr
      rw [issued_of_log (handler env event) w _ (by rw [hr]; rfl)]
      by_cases hc : event.type = .cut <;> simp [notices, hc]
    | error x =>
      rw [intercept_multi_error env event _ w x htp hne hs] at hr
      rw [issued_of_log (handler env event) w _ (by rw [hr]; rfl)]
      simp [notices]

/-- Claim C6 at the two scenarios of the specification: three blocks, and the
single paragraph `id7`. -/
theorem copy_creates_one_snackbar_notice_witness :
    notices (issued (handler (exampleEnv ["id1", "id2", "id3"]) (insideEvent .copy)) (mount 0 0))
        = [("Copied 3 blocks to clipboard.", NoticeType.snackbar)]
      ∧ notices (issued (handler (exampleEnv ["id7"]) (insideEvent .copy)) (mount 0 0))
        = [("Copied block \"Paragraph\" to clipboard.", NoticeType.snackbar)] :=
  ⟨(copy_creates_one_snackbar_notice (exampleEnv ["id1", "id2", "id3"]) (insideEvent .copy)
      (mount 0 0) (Or.inl rfl) rfl).2 (by decide),
   (copy_creates_one_snackbar_notice (exampleEnv ["id7"]) (insideEvent .copy)
      (mount 0 0) (Or.inl rfl) rfl).1 "id7" rfl⟩

/-- Claim C7: an intercepted paste with selected ids S, when `pasteHandler`
(called with the event's html and plain text, mode `BLOCKS` and the
`canUserUseUnfilteredHTML` flag) returns the blocks B, issues after
`preventDefault` and that call exactly one command,
`replaceBlocks( S, B, B.length - 1, -1 )`: no `removeBlocks`, no notice, no
clipboard write, no flash; and when B has a last block, the index `B.length - 1`
is the position of that block. -/
theorem paste_replaces_selection_and_focuses_last (env : Env) (event : Event) (w : World)
    (blocks : List Block) (ht : event.type = .paste) (hi : declines env event = false)
    (hp : env.pasteHandler
        { HTML := (env.getPasteEventData event).html
          plainText := (env.getPasteEventData event).plainText
          mode := .BLOCKS
          canUserUseUnfilteredHTML := env.canUserUseUnfilteredHTML } = .ok blocks) :
    issued (handler env event) w
        = [Effect.preventDefault,
            Effect.pasteHandler
              { HTML := (env.getPasteEventData event).html
                plainText := (env.getPasteEventData event).plainText
                mode := .BLOCKS
                canUserUseUnfilteredHTML := env.canUserUseUnfilteredHTML },
            Effect.replaceBlocks env.getSelectedBlockClientIds blocks
              ((blocks.length : Int) - 1) (-1)]
      ∧ returned (handler env event w) = true
      ∧ removals (issued (handler env event) w) = []
      ∧ notices (issued (handler env event) w) = []
      ∧ clipboardWrites (issued (handler env event) w) = []
      ∧ (finalWorld (handler env event w)).timers = w.timers
      ∧ (∀ last, blocks.getLast? = some last →
          0 ≤ (blocks.length : Int) - 1
            ∧ blocks.get? ((blocks.length : Int) - 1).toNat = some last) := by
  have hr := handler_of_not_declines env event w hi
  rw [intercept_paste_ok env event _ w blocks ht hp] at hr
  have hiss := issued_of_log (handler env event) w _ (show _ = w.log ++ _ by rw [hr]; rfl)
  refine ⟨?_, ?_, ?_, ?_, ?_, ?_, ?_⟩
  · rw [hiss]; rfl
  · rw [hr]; rfl
  · rw [hiss]; rfl
  · rw [hiss]; rfl
  · rw [hiss]; rfl
  · rw [hr]; rfl
  · intro last hlast
    have hpos : 0 < blocks.length := by
      cases blocks with
      | nil => simp at hlast
      | cons b bs => simp
    have hidx : ((blocks.length : Int) - 1).toNat = blocks.length - 1 := by omega
    refine ⟨by omega, ?_⟩
    rw [hidx, ← hlast, List.getLast?_eq_getElem?]
    simp

/-- Claim C7 at the scenario of the specification: `x`, `y`, `z` selected, the
parser returns `p`, `q`; the index 1 is that of `q`. -/
theorem paste_replaces_selection_and_focuses_last_witness :
    issued (handler (exampleEnv ["x", "y", "z"]) (insideEvent .paste)) (mount 0 0)
      = [Effect.preventDefault,
          Effect.pasteHandler
            { HTML := "<p>text</p>", plainText := "text", mode := .BLOCKS,
              canUserUseUnfilteredHTML := true },
          Effect.replaceBlocks ["x", "y", "z"] [paragraph "p", paragraph "q"] 1 (-1)] :=
  (paste_replaces_selection_and_focuses_last (exampleEnv ["x", "y", "z"]) (insideEvent .paste)
    (mount 0 0) [paragraph "p", paragraph "q"] rfl rfl rfl).1

/-- Claim C8: after any sequence of `flashBlock` calls, passing time and
clipboard events since mount, every pending timer's handle is in
`timeouts.current`; so the cleanup leaves no timer pending, and however much time
passes afterwards the log stays what it was at teardown: no
`toggleBlockHighlight` follows. -/
theorem flash_timers_cancelled_at_teardown (now nextHandle : Nat) (actions : List HookAction)
    (later : List Nat) :
    (∀ t ∈ (runActions actions (mount now nextHandle)).timers,
        t.handle ∈ (runActions actions (mount now nextHandle)).timeouts)
      ∧ (teardown (runActions actions (mount now nextHandle))).timers = []
      ∧ (advanceAll later (teardown (runActions actions (mount now nextHandle)))).log
        = (runActions actions (mount now nextHandle)).log := by
  have hrec := recorded_runActions actions (mount now nextHandle) (recorded_mount now nextHandle)
  have htd := teardown_timers _ hrec
  refine ⟨hrec, htd, ?_⟩
  rw [(advanceAll_idle later _ htd).1, teardown, (clearAll_spec _ _).2]

/-- Claim C9 fails as stated: in a copy of one block whose serialization throws,
the block has been flashed and the notice created before `serialize` is called;
the run ends in the exception with both already issued. -/
theorem notice_and_flash_precede_failing_serialize :
    declines (failingEnv ["id7"]) (insideEvent .copy) = false
      ∧ returned (handler (failingEnv ["id7"]) (insideEvent .copy) (mount 0 0)) = false
      ∧ issued (handler (failingEnv ["id7"]) (insideEvent .copy)) (mount 0 0)
        = [Effect.preventDefault,
            Effect.toggleBlockHighlight "id7" true,
            Effect.createSuccessNotice "Copied block \"Paragraph\" to clipboard." .snackbar,
            Effect.serialize [paragraph "id7"]] := by
  decide

/-- Claim C9, amended: an intercepted copy or cut issues its effects in the order
`preventDefault`, the flash (when exactly one block is selected), the success
notice, the call of `serialize`, the two clipboard writes, and on cut
`removeBlocks`; hence if serialization fails the exception propagates with the
flash and the notice already issued, and with no clipboard write and no
`removeBlocks`. -/
theorem copy_effects_in_program_order (env : Env) (event : Event) (w : World)
    (ht : event.type = .copy ∨ event.type = .cut) (hi : declines env event = false) :
    ∃ text : String,
      let ids := env.getSelectedBlockClientIds
      let blocks := env.getBlocksByClientId ids
      let flash : List Effect :=
        match ids with
        | [id] => [Effect.toggleBlockHighlight id true]
        | _ => []
      let front : List Effect :=
        [Effect.preventDefault] ++ flash
          ++ [Effect.createSuccessNotice text .snackbar, Effect.serialize blocks]
      (∀ s, env.serialize blocks = .ok s →
        returned (handler env event w) = true
          ∧ issued (handler env event) w
            = front ++ [Effect.setData "text/plain" s, Effect.setData "text/html" s]
              ++ (if event.type = .cut then [Effect.removeBlocks ids] else []))
      ∧ (∀ x, env.serialize blocks = .error x →
        handler env event w = .error x (finalWorld (handler env event w))
          ∧ issued (handler env event) w = front) := by
  have htp : event.type ≠ .paste := by rcases ht with h | h <;> simp [h]
  have hr := handler_of_not_declines env event w hi
  by_cases hn : env.getSelectedBlockClientIds.length = 1
  · obtain ⟨id, hid⟩ := List.length_eq_one.mp hn
    refine ⟨"Copied block \"" ++ (env.getBlockType (env.getBlockName id)).title
      ++ "\" to clipboard.", ?_⟩
    simp only [hid] at hr ⊢
    refine ⟨fun s hs => ?_, fun x hs => ?_⟩
    · rw [intercept_single_ok env event id w s htp hs] at hr
      rw [issued_of_log (handler env event) w _ (by rw [hr]; rfl), hr]
      simp [returned]
    · rw [intercept_single_error env event id w x htp hs] at hr
      rw [issued_of_log (handler env event) w _ (by rw [hr]; rfl), hr]
      simp [finalWorld]
  · refine ⟨"Copied " ++ toString env.getSelectedBlockClientIds.length
      ++ " blocks to clipboard.", ?_⟩
    have hflash : (match env.getSelectedBlockClientIds with
        | [id] => [Effect.toggleBlockHighlight id true]
        | _ => []) = [] := by
      split
      · rename_i id hid
        simp [hid] at hn
      · rfl
    simp only [hflash]
    refine ⟨fun s hs => ?_, fun x hs => ?_⟩
    · rw [intercept_multi_ok env event _ w s htp hn hs] at hr
      rw [issued_of_log (handler env event) w _ (by rw [hr]; rfl), hr]
      simp [returned]
    · rw [intercept_multi_error env event _ w x htp hn hs] at hr
      rw [issued_of_log (handler env event) w _ (by rw [hr]; rfl), hr]
      simp [finalWorld]

/-- Claim C9, amended, at a cut of the paragraph `id7`. -/
theorem copy_effects_in_program_order_witness :
    ∃ text : String,
      issued (handler (exampleEnv ["id7"]) (insideEvent .cut)) (mount 0 0)
        = [Effect.preventDefault, Effect.toggleBlockHighlight "id7" true,
            Effect.createSuccessNotice text .snackbar, Effect.serialize [paragraph "id7"],
            Effect.setData "text/plain" "<!-- wp:paragraph --><p>id7</p><!-- /wp:paragraph -->",
            Effect.setData "text/html" "<!-- wp:paragraph --><p>id7</p><!-- /wp:paragraph -->",
            Effect.removeBlocks ["id7"]] :=
  (copy_effects_in_program_order (exampleEnv ["id7"]) (insideEvent .cut) (mount 0 0)
    (Or.inr rfl) rfl).imp fun _ h => (h.1 _ rfl).2

/-- Claim C10 fails as stated: an intercepted copy of two blocks calls
`flashBlock` on neither; no highlight is toggled and no timer is set. -/
theorem multi_block_copy_does_not_flash :
    declines (exampleEnv ["a", "b"]) (insideEvent .copy) = false
      ∧ highlights (issued (handler (exampleEnv ["a", "b"]) (insideEvent .copy)) (mount 0 0)) = []
      ∧ (finalWorld (handler (exampleEnv ["a", "b"]) (insideEvent .copy) (mount 0 0))).timers
        = [] := by
  decide

/-- Claim C10, amended: an intercepted copy or cut of exactly one block calls
`flashBlock` once on that block: its highlight is set to true, a timer due in
1000 ms that resets it is created and its handle is recorded in
`timeouts.current`; with two or more blocks selected no highlight is toggled and
no timer is created. -/
theorem single_block_copy_flashes_once (env : Env) (event : Event) (w : World)
    (ht : event.type = .copy ∨ event.type = .cut) (hi : declines env event = false) :
    (∀ id, env.getSelectedBlockClientIds = [id] →
      highlights (issued (handler env event) w) = [(id, true)]
        ∧ (finalWorld (handler env event w)).timers
          = w.timers ++ [{ handle := w.nextHandle, clientId := id, due := w.now + 1000 }]
        ∧ (finalWorld (handler env event w)).timeouts = w.timeouts ++ [w.nextHandle])
    ∧ (1 < env.getSelectedBlockClientIds.length →
      highlights (issued (handler env event) w) = []
        ∧ (finalWorld (handler env event w)).timers = w.timers
        ∧ (finalWorld (handler env event w)).timeouts = w.timeouts) := by
  have htp : event.type ≠ .paste := by rcases ht with h | h <;> simp [h]
  have hr := handler_of_not_declines env event w hi
  refine ⟨fun id hid => ?_, fun hn => ?_⟩
  · rw [hid] at hr
    cases hs : env.serialize (env.getBlocksByClientId [id]) with
    | ok s =>
      rw [intercept_single_ok env event id w s htp hs] at hr
      rw [issued_of_log (handler env event) w _ (by rw [hr]; rfl), hr]
      by_cases hc : event.type = .cut <;> simp [highlights, hc, finalWorld]
    | error x =>
      rw [intercept_single_error env event id w x htp hs] at hr
      rw [issued_of_log (handler env event) w _ (by rw [hr]; rfl), hr]
      simp [highlights, finalWorld]
  · have hne : env.getSelectedBlockClientIds.length ≠ 1 := by omega
    cases hs : env.serialize (env.getBlocksByClientId env.getSelectedBlockClientIds) with
    | ok s =>
      rw [intercept_multi_ok env event _ w s htp hne hs] at hr
      rw [issued_of_log (handler env event) w _ (by rw [hr]; rfl), hr]
      by_cases hc : event.type = .cut <;> simp [highlights, hc, finalWorld]
    | error x =>
      rw [intercept_multi_error env event _ w x htp hne hs] at hr
      rw [issued_of_log (handler env event) w _ (by rw [hr]; rfl), hr]
      simp [highlights, finalWorld]

/-- Claim C10, amended, at a copy of the paragraph `id7` at time 0. -/
theorem single_block_copy_flashes_once_witness :
    highlights (issued (handler (exampleEnv ["id7"]) (insideEvent .copy)) (mount 0 0))
        = [("id7", true)]
      ∧ (finalWorld (handler (exampleEnv ["id7"]) (insideEvent .copy) (mount 0 0))).timers
        = [{ handle := 0, clientId := "id7", due := 1000 }]
      ∧ (finalWorld (handler (exampleEnv ["id7"]) (insideEvent .copy) (mount 0 0))).timeouts
        = [0] :=
  (single_block_copy_flashes_once (exampleEnv ["id7"]) (insideEvent .copy) (mount 0 0)
    (Or.inl rfl) rfl).1 "id7" rfl

end CopyHandler
